import Mathlib

/-!
Verification of the azuredevops2terraform repository: a shallow embedding of
the pagination/normalization extractor (`extract_azure_devops_api_data.py`)
and of the three Terraform-block generators (`terraform_azure_devops_project.py`,
`terraform_azure_devops_repos.py`, `terraform_azure_devops_variablegroups.py`),
together with theorems settling the frozen claims about them.
-/

set_option maxHeartbeats 1000000
set_option maxRecDepth 100000

namespace AzdoTf

/-- JSON values as decoded by Python's `json.loads`: strings, (integer) numbers,
booleans, null, arrays, and objects (insertion-ordered key/value lists, keys
unique as produced by a Python dict). -/
inductive JSONVal : Type where
  | str : String → JSONVal
  | num : Int → JSONVal
  | bool : Bool → JSONVal
  | null : JSONVal
  | arr : List JSONVal → JSONVal
  | obj : List (String × JSONVal) → JSONVal

/-- Python truthiness (`bool(x)`) of a decoded JSON value: empty string, zero,
`False`, `None`, empty list and empty dict are falsy. -/
def truthy : JSONVal → Bool
  | .str s => s != ""
  | .num n => n != 0
  | .bool b => b
  | .null => false
  | .arr l => !l.isEmpty
  | .obj l => !l.isEmpty

/-- Truthiness of the result of `dict.get(key)`: `None` (absent) is falsy. -/
def truthyOpt : Option JSONVal → Bool
  | none => false
  | some v => truthy v

/-! ## Identifier sanitization

The generators all compute
`re.sub(r'[^a-z0-9]+', '_', name.lower()).strip('_')`, falling back to a
fixed identifier if that is empty. -/

/-- Python `str.lower` on one character (ASCII case mapping; non-ASCII
letters are outside `[a-z0-9]` both before and after lowering, so the ASCII
mapping is the only part visible to the sanitizer). -/
def lowerChar (c : Char) : Char :=
  if 65 ≤ c.toNat ∧ c.toNat ≤ 90 then Char.ofNat (c.toNat + 32) else c

/-- Python `str.lower` on a whole string. -/
def lowerString (s : String) : String := String.mk (s.data.map lowerChar)

/-- Membership in the regex class `[a-z0-9]`. -/
def isSafeChar (c : Char) : Bool := (97 ≤ c.toNat && c.toNat ≤ 122) || (48 ≤ c.toNat && c.toNat ≤ 57)

/-- The underscore character test used by `.strip('_')`. -/
def isU (c : Char) : Bool := c == '_'

/-- Python `re.sub(r'[^a-z0-9]+', '_', ·)` as a single pass: the flag records whether
the previous character was part of an unsafe run (in which case further unsafe
characters extend the already-replaced run instead of emitting another `_`). -/
def squashAux : Bool → List Char → List Char
  | _, [] => []
  | inRun, c :: rest =>
    if isSafeChar c then c :: squashAux false rest
    else if inRun then squashAux true rest
    else '_' :: squashAux true rest

/-- Python `.strip('_')`: drop leading then trailing underscores. -/
def stripU (l : List Char) : List Char := List.rdropWhile isU (List.dropWhile isU l)

/-- The expression `re.sub(r'[^a-z0-9]+', '_', s.lower()).strip('_')` (the part of the
sanitizer before the emptiness fallback). -/
def sanitizeCore (s : String) : String :=
  String.mk (stripU (squashAux false (s.data.map lowerChar)))

/-- The shared identifier sanitizer of the three generators: the cleaned name,
or the caller's fallback constant when the cleaned name is empty. -/
def sanitize (s fallback : String) : String :=
  if sanitizeCore s = "" then fallback else sanitizeCore s

/-- Modelled from the spec's words for §4.1 (the claim's description of the
algorithm), to be compared with the source-derived `sanitize`: replace every
maximal run of characters outside `[a-z0-9]` with a single underscore, by
emitting one `_` per run and skipping the rest of the run explicitly. -/
def replaceRuns : List Char → List Char
  | [] => []
  | c :: rest =>
    if isSafeChar c then c :: replaceRuns rest
    else '_' :: replaceRuns (rest.dropWhile (fun d => !isSafeChar d))
termination_by l => l.length
decreasing_by
  simp_wf
  have h := (List.dropWhile_sublist (l := rest) (fun d => !isSafeChar d)).length_le
  simp only [List.length_cons]
  omega

/-- The spec-side sanitizer: lowercase, collapse maximal unsafe runs, strip
edge underscores, fall back when empty. -/
def sanitizeSpec (s fallback : String) : String :=
  if String.mk (stripU (replaceRuns (s.data.map lowerChar))) = "" then fallback
  else String.mk (stripU (replaceRuns (s.data.map lowerChar)))

/-! ## Properties of the sanitizer output, towards idempotence -/

/-- Characters that can appear in the squashed string: safe characters and the
replacement underscore. -/
def okChar (c : Char) : Bool := isSafeChar c || isU c

/-- Adjacent characters of the squashed string are never both underscores. -/
def noUU (a b : Char) : Prop := ¬(a = '_' ∧ b = '_')

/-! ## Response normalization and pagination (extract_azure_devops_api_data.py) -/

/-- Scan of the object's entries in insertion order for the first array-valued
entry (the for-loop of lines 63-68). -/
def firstArrayEntry : List (String × JSONVal) → Option (List JSONVal)
  | [] => none
  | (_, v) :: rest =>
    match v with
    | .arr xs => some xs
    | _ => firstArrayEntry rest

/-- The response-shape normalization of one page (lines 55-75): a dict whose
"value" key holds a list contributes that list; a bare list contributes its
elements; any other dict contributes its first array-valued entry, or, lacking
one, the whole dict; any other value is appended whole. -/
def normalize (page : JSONVal) : List JSONVal :=
  match page with
  | .obj fields =>
    match fields.lookup "value" with
    | some (.arr xs) => xs
    | _ =>
      match firstArrayEntry fields with
      | some xs => xs
      | none => [page]
  | .arr xs => xs
  | v => [v]

/-- Modelled from the spec's words for §4.2 rule 1: an object with a key
"value" whose value is an array yields that array. -/
def ruleOneSpec : JSONVal → Option (List JSONVal)
  | .obj fields =>
    match fields.lookup "value" with
    | some (.arr xs) => some xs
    | _ => none
  | _ => none

/-- Modelled from the spec's words for §4.2 rule 2: an array yields its own
elements. -/
def ruleTwoSpec : JSONVal → Option (List JSONVal)
  | .arr xs => some xs
  | _ => none

/-- Modelled from the spec's words for §4.2 rule 3: an object yields the
elements of the first entry, in insertion order, whose value is an array. -/
def ruleThreeSpec : JSONVal → Option (List JSONVal)
  | .obj fields => firstArrayEntry fields
  | _ => none

/-- Modelled from the spec's words for §4.2: the four resolution rules tried
in this exact priority order, first match wins, rule 4 (wrap the whole value)
as the final default. -/
def normalizeSpec (page : JSONVal) : List JSONVal :=
  match ruleOneSpec page with
  | some xs => xs
  | none =>
    match ruleTwoSpec page with
    | some xs => xs
    | none =>
      match ruleThreeSpec page with
      | some xs => xs
      | none => [page]

/-- One recorded HTTP response: decoded JSON body plus response headers. -/
structure Page where
  body : JSONVal
  headers : List (String × String)

/-- Lookup `response.headers.get`: requests exposes headers through a
case-insensitive mapping. -/
def getHeader (hs : List (String × String)) (k : String) : Option String :=
  (hs.find? (fun q => lowerString q.1 == lowerString k)).map (fun q => q.2)

/-- Python truthiness of an optional header value: `None` and `""` are falsy. -/
def tokenOf : Option String → Option String
  | some s => if s = "" then none else some s
  | none => none

/-- Lines 79-84: read the primary continuation header
`x-ms-continuationtoken`; if that is falsy, read the fallback header
`ContinuationToken`; the loop continues only when the result is truthy. -/
def continuationOf (p : Page) : Option String :=
  match tokenOf (getHeader p.headers "x-ms-continuationtoken") with
  | some s => some s
  | none => tokenOf (getHeader p.headers "ContinuationToken")

/-- The while-loop of `extract_azure_devops_api_data`, driven by a
pre-recorded sequence of responses (one page consumed per request issued):
returns the aggregated data and the number of requests, or `none` when the
recorded responses are exhausted while a continuation token is still pending.
-/
def fetchFrom : List Page → Option (List JSONVal × Nat)
  | [] => none
  | p :: rest =>
    match continuationOf p with
    | some _ =>
      match fetchFrom rest with
      | some (items, n) => some (normalize p.body ++ items, n + 1)
      | none => none
    | none => some (normalize p.body, 1)

/-- Page 1 of the C1 example: body with two items, continuation header set. -/
def pageOne : Page :=
  ⟨.obj [("value", .arr [.str "A", .str "B"])], [("x-ms-continuationtoken", "tok1")]⟩

/-- Page 2 of the C1 example: one item, no continuation header. -/
def pageTwo : Page := ⟨.obj [("value", .arr [.str "C"])], []⟩

/-! ## The three Terraform-block generators -/

/-- Result of running a fragment of the generator code on one input: a value,
or an uncaught Python exception (an `AttributeError`/`TypeError` from calling
`.get`, `.lower` or `.items` on a wrongly-typed value). -/
inductive Py (α : Type) where
  | ok : α → Py α
  | raise : Py α
  deriving DecidableEq

def hexDigit (n : Nat) : Char :=
  if n < 10 then Char.ofNat (48 + n) else Char.ofNat (87 + n)

def hex4 (n : Nat) : String :=
  String.mk [hexDigit (n / 4096 % 16), hexDigit (n / 256 % 16), hexDigit (n / 16 % 16),
    hexDigit (n % 16)]

/-- One character of `json.dumps` string output (CPython's ASCII string
escaper: quote, backslash and the five short escapes, `\uXXXX` for the other
characters outside `0x20`-`0x7e`, surrogate pairs above `0xFFFF`). -/
def jsonEscapeChar (c : Char) : String :=
  if c = '"' then "\\\""
  else if c = '\\' then "\\\\"
  else if c.toNat = 8 then "\\b"
  else if c.toNat = 9 then "\\t"
  else if c.toNat = 10 then "\\n"
  else if c.toNat = 12 then "\\f"
  else if c.toNat = 13 then "\\r"
  else if 32 ≤ c.toNat ∧ c.toNat ≤ 126 then String.singleton c
  else if c.toNat < 65536 then "\\u" ++ hex4 c.toNat
  else
    "\\u" ++ hex4 (55296 + (c.toNat - 65536) / 1024) ++
      "\\u" ++ hex4 (56320 + (c.toNat - 65536) % 1024)

/-- Behavior of `json.dumps` on a string: double-quoted with JSON escaping. -/
def jsonQuote (s : String) : String :=
  "\"" ++ String.join (s.data.map jsonEscapeChar) ++ "\""

mutual

/-- Behavior of `json.dumps` with its defaults (used on the project description),
together with its comma-separated folds over arrays and objects. -/
def jsonDumps : JSONVal → String
  | .str s => jsonQuote s
  | .num n => toString n
  | .bool b => if b then "true" else "false"
  | .null => "null"
  | .arr xs => "[" ++ jsonDumpsList xs ++ "]"
  | .obj fs => "\x7b" ++ jsonDumpsObj fs ++ "\x7d"

def jsonDumpsList : List JSONVal → String
  | [] => ""
  | [x] => jsonDumps x
  | x :: y :: rest => jsonDumps x ++ ", " ++ jsonDumpsList (y :: rest)

def jsonDumpsObj : List (String × JSONVal) → String
  | [] => ""
  | [(k, v)] => jsonQuote k ++ ": " ++ jsonDumps v
  | (k, v) :: q :: rest => jsonQuote k ++ ": " ++ jsonDumps v ++ ", " ++ jsonDumpsObj (q :: rest)

end

mutual

/-- Python `repr` of a decoded JSON value, as used by `str()` on containers.
String repr is modeled as plain single-quoting (Python's quote-choice and
escaping for strings containing quotes or escapes is not modeled; no claim
exercises it — the generators only interpolate container values in degenerate
entities). -/
def pyRepr : JSONVal → String
  | .str s => "'" ++ s ++ "'"
  | .num n => toString n
  | .bool b => if b then "True" else "False"
  | .null => "None"
  | .arr xs => "[" ++ pyReprList xs ++ "]"
  | .obj fs => "\x7b" ++ pyReprObj fs ++ "\x7d"

def pyReprList : List JSONVal → String
  | [] => ""
  | [x] => pyRepr x
  | x :: y :: rest => pyRepr x ++ ", " ++ pyReprList (y :: rest)

def pyReprObj : List (String × JSONVal) → String
  | [] => ""
  | [(k, v)] => "'" ++ k ++ "': " ++ pyRepr v
  | (k, v) :: q :: rest => "'" ++ k ++ "': " ++ pyRepr v ++ ", " ++ pyReprObj (q :: rest)

end

/-- Python `str()` of a decoded JSON value, as applied by f-string
interpolation. -/
def pyStr : JSONVal → String
  | .str s => s
  | v => pyRepr v

/-- The body of `gerar_terraform_projeto_ado` from the field-extraction step
on (lines 37-77), applied to the selected entity. -/
def gerarProjetoCore (dados : JSONVal) : Py (Option String × Option String) :=
  match dados with
  | .obj fields =>
    let project_id := fields.lookup "id"
    let project_name := fields.lookup "name"
    let project_description := (fields.lookup "description").getD (.str "")
    let project_visibility := (fields.lookup "visibility").getD (.str "private")
    match (fields.lookup "capabilities").getD (.obj []) with
    | .obj capFields =>
      match (capFields.lookup "processTemplate").getD (.obj []) with
      | .obj ptFields =>
        let work_item_template := (ptFields.lookup "templateName").getD (.str "Agile")
        match (capFields.lookup "versioncontrol").getD (.obj []) with
        | .obj vcFields =>
          let version_control := (vcFields.lookup "sourceControlType").getD (.str "Git")
          if !(truthyOpt project_id && truthyOpt project_name) then .ok (none, none)
          else
            match project_name with
            | some (.str nameStr) =>
              let resource_name_snake_case := sanitize nameStr "unnamed_project"
              let formatted_description := jsonDumps project_description
              let terraform_resource :=
                "\nresource \"azuredevops_project\" \"" ++ resource_name_snake_case ++
                  "\" \x7b\n  name               = \"" ++ nameStr ++
                  "\"\n  description        = " ++ formatted_description ++
                  "\n  visibility         = \"" ++ pyStr project_visibility ++
                  "\"\n  version_control    = \"" ++ pyStr version_control ++
                  "\"\n  work_item_template = \"" ++ pyStr work_item_template ++
                  "\"\n\x7d\n"
              let terraform_import_block :=
                if truthyOpt project_id then
                  "\nimport \x7b\n  id = \"" ++ pyStr (project_id.getD .null) ++
                    "\"\n  to = azuredevops_project." ++ resource_name_snake_case ++ "\n\x7d\n"
                else ""
              .ok (some terraform_resource, some terraform_import_block)
            | _ => .raise
        | _ => .raise
      | _ => .raise
    | _ => .raise
  | _ => .raise

/-- Function `gerar_terraform_projeto_ado` applied to a decoded input (the
`json.loads` step succeeded): a non-empty list contributes its first element,
a dict is used directly, anything else aborts with `(None, None)`
(lines 23-29). -/
def gerar_terraform_projeto_ado (data : JSONVal) : Py (Option String × Option String) :=
  match data with
  | .arr (h :: _) => gerarProjetoCore h
  | .obj _ => gerarProjetoCore data
  | _ => .ok (none, none)

/-- The body of `gerar_terraform_repositorio_ado` from the field-extraction
step on (lines 38-93), applied to the selected entity. -/
def gerarRepoCore (dados : JSONVal) : Py (Option String × Option String) :=
  match dados with
  | .obj fields =>
    let repo_id := fields.lookup "id"
    let repo_name := fields.lookup "name"
    match (fields.lookup "project").getD (.obj []) with
    | .obj projFields =>
      let project_id := projFields.lookup "id"
      let project_name := projFields.lookup "name"
      if !(truthyOpt repo_id && truthyOpt repo_name &&
          truthyOpt project_id && truthyOpt project_name) then .ok (none, none)
      else
        match repo_name, project_name with
        | some (.str repoNameStr), some (.str projNameStr) =>
          let repo_resource_name_snake_case := sanitize repoNameStr "unnamed_repository"
          let project_resource_name_snake_case := sanitize projNameStr "unnamed_project_ref"
          let terraform_resource :=
            "\nresource \"azuredevops_git_repository\" \"" ++ repo_resource_name_snake_case ++
              "\" \x7b\n  project_id = azuredevops_project." ++
              project_resource_name_snake_case ++ ".id\n  name       = \"" ++ repoNameStr ++
              "\"\n\n  # Incluindo o bloco initialization com init_type \"Clean\"\n  initialization \x7b\n    init_type = \"Clean\"\n  \x7d\n\n  # Incluindo o bloco lifecycle para gerenciar importação e proteção contra destruição\n  lifecycle \x7b\n    ignore_changes = [\n      # Ignora mudanças em initialization para suportar importação de repositórios existentes\n      # Dado que um repo agora existe, seja importado para o estado do terraform ou criado pelo terraform,\n      # não nos importamos com a configuração de initialization contra o recurso existente\n      initialization,\n    ]\n    prevent_destroy = true\n  \x7d\n\x7d\n"
          let terraform_import_block :=
            if truthyOpt repo_id && truthyOpt project_id then
              "\nimport \x7b\n  id = \"" ++ pyStr (project_id.getD .null) ++ "/" ++
                pyStr (repo_id.getD .null) ++ "\"\n  to = azuredevops_git_repository." ++
                repo_resource_name_snake_case ++ "\n\x7d\n"
            else ""
          .ok (some terraform_resource, some terraform_import_block)
        | _, _ => .raise
    | _ => .raise
  | _ => .raise

/-- Function `gerar_terraform_repositorio_ado` applied to a decoded input
(lines 24-30). -/
def gerar_terraform_repositorio_ado (data : JSONVal) : Py (Option String × Option String) :=
  match data with
  | .arr (h :: _) => gerarRepoCore h
  | .obj _ => gerarRepoCore data
  | _ => .ok (none, none)

/-- The variables for-loop of `gerar_terraform_variablegroup_ado`
(lines 222-226): one nested variable sub-block per entry, in insertion order;
value default `""`, secrecy default `False`, secrecy rendered as
`str(...).lower()`. -/
def vgVariablesBlock : List (String × JSONVal) → Py String
  | [] => .ok ""
  | (var_name, var_data) :: rest =>
    match var_data with
    | .obj varFields =>
      let value := (varFields.lookup "value").getD (.str "")
      let is_secret := (varFields.lookup "isSecret").getD (.bool false)
      let line := "    " ++ var_name ++ " = \x7b\n      value     = \"" ++ pyStr value ++
        "\"\n      is_secret = " ++ lowerString (pyStr is_secret) ++ "\n    \x7d\n"
      match vgVariablesBlock rest with
      | .ok restBlock => .ok (line ++ restBlock)
      | .raise => .raise
    | _ => .raise

/-- The body of `gerar_terraform_variablegroup_ado` from the field-extraction
step on (lines 203-245), applied to the selected entity. -/
def gerarVgCore (dados : JSONVal) : Py (Option String × Option String) :=
  match dados with
  | .obj fields =>
    let vg_id := fields.lookup "id"
    let vg_name := fields.lookup "name"
    match (fields.lookup "projectReference").getD (.obj []) with
    | .obj prFields =>
      let project_id := prFields.lookup "id"
      let project_name := prFields.lookup "name"
      let variablesVal := (fields.lookup "variables").getD (.obj [])
      if !(truthyOpt vg_id && truthyOpt vg_name &&
          truthyOpt project_id && truthyOpt project_name) then .ok (none, none)
      else
        match vg_name, project_name with
        | some (.str vgNameStr), some (.str projNameStr) =>
          let vg_resource_name_snake_case := sanitize vgNameStr "unnamed_variablegroup"
          let project_resource_name_snake_case := sanitize projNameStr "unnamed_project_ref"
          match variablesVal with
          | .obj varEntries =>
            match vgVariablesBlock varEntries with
            | .ok variables_block =>
              let terraform_resource :=
                "\nresource \"azuredevops_variable_group\" \"" ++
                  vg_resource_name_snake_case ++ "\" \x7b\n  project_id = azuredevops_project." ++
                  project_resource_name_snake_case ++ ".id\n  name       = \"" ++ vgNameStr ++
                  "\"\n\n  variable \x7b\n" ++ variables_block ++ "  \x7d\n\x7d\n"
              let terraform_import_block :=
                if truthyOpt vg_id && truthyOpt project_id then
                  "\nimport \x7b\n  id = \"" ++ pyStr (project_id.getD .null) ++ "/" ++
                    pyStr (vg_id.getD .null) ++ "\"\n  to = azuredevops_variable_group." ++
                    vg_resource_name_snake_case ++ "\n\x7d\n"
                else ""
              .ok (some terraform_resource, some terraform_import_block)
            | .raise => .raise
          | _ => .raise
        | _, _ => .raise
    | _ => .raise
  | _ => .raise

/-- Function `gerar_terraform_variablegroup_ado` applied to a decoded input
(lines 189-195). -/
def gerar_terraform_variablegroup_ado (data : JSONVal) : Py (Option String × Option String) :=
  match data with
  | .arr (h :: _) => gerarVgCore h
  | .obj _ => gerarVgCore data
  | _ => .ok (none, none)

/-! ## Spec-side rendering of variable sub-blocks, and substring containment -/

/-- Modelled from the spec's words for the VariableGroup-specific rule: one
nested variable sub-block whose value is the raw variable value surrounded by
quotes (no further escaping) and whose secrecy flag is the lowercase boolean
literal. -/
def vgVarLineSpec (n rawValue : String) (secret : Bool) : String :=
  "    " ++ n ++ " = \x7b\n      value     = \"" ++ rawValue ++
    "\"\n      is_secret = " ++ (cond secret "true" "false") ++ "\n    \x7d\n"

/-- Modelled from the spec's words: the concatenation, in insertion order, of
one spec-side variable sub-block per entry. -/
def vgVarsSpecFold : List (String × String × Bool) → String
  | [] => ""
  | (n, v, b) :: rest => vgVarLineSpec n v b ++ vgVarsSpecFold rest

/-- Correspondence between a raw `variables` entry and its (name, raw value,
secrecy) reading: value a string defaulting to `""`, secrecy a boolean
defaulting to `False`. -/
def vgEntryMatches (p : String × JSONVal) (t : String × String × Bool) : Prop :=
  p.1 = t.1 ∧ ∃ vf, p.2 = .obj vf ∧
    ((vf.lookup "value" = none ∧ t.2.1 = "") ∨ vf.lookup "value" = some (.str t.2.1)) ∧
    ((vf.lookup "isSecret" = none ∧ t.2.2 = false) ∨ vf.lookup "isSecret" = some (.bool t.2.2))

/-- The string `mid` occurs as a contiguous substring of `s`. -/
def strContainsSub (s mid : String) : Prop := ∃ a b, s = a ++ mid ++ b

/-! ## Concrete entities used by the claims -/

/-- The Project entity of claim C6. -/
def projEntity : JSONVal :=
  .obj [("id", .str "1"), ("name", .str "My Proj!"), ("visibility", .str "private")]

/-- The C6 Project entity with a description exercising JSON escaping. -/
def projEntityDesc : JSONVal :=
  .obj [("id", .str "1"), ("name", .str "My Proj!"), ("visibility", .str "private"),
    ("description", .str "say \"hi\"\n")]

/-- The Repository entity of claim C7. -/
def repoEntity : JSONVal :=
  .obj [("id", .str "r123"), ("name", .str "Core Repo"),
    ("project", .obj [("id", .str "9"), ("name", .str "Core Proj")])]

/-- A VariableGroup entity for claim C8: two variables in insertion order, the
first with no secrecy flag, the second secret. -/
def vgEntity : JSONVal :=
  .obj [("id", .num 7), ("name", .str "My Vars!"),
    ("projectReference", .obj [("id", .str "9"), ("name", .str "Core Proj")]),
    ("variables", .obj [("alpha", .obj [("value", .str "one")]),
      ("beta", .obj [("value", .str "two"), ("isSecret", .bool true)])])]

/-- The fixed initialization sub-block text of the repository template. -/
def repoInitSubText : String := "  initialization \x7b\n    init_type = \"Clean\"\n  \x7d"

/-- The prevent-destroy line of the repository lifecycle sub-block. -/
def repoPreventText : String := "    prevent_destroy = true"

/-- The ignore-changes list (covering initialization) of the repository
lifecycle sub-block. -/
def repoIgnoreText : String :=
  "    ignore_changes = [\n      # Ignora mudanças em initialization para suportar importação de repositórios existentes\n      # Dado que um repo agora existe, seja importado para o estado do terraform ou criado pelo terraform,\n      # não nos importamos com a configuração de initialization contra o recurso existente\n      initialization,\n    ]"

theorem squashAux_eq_replaceRuns (l : List Char) :
    squashAux false l = replaceRuns l ∧
      squashAux true l = replaceRuns (l.dropWhile (fun d => !isSafeChar d)) := by
  induction l with
  | nil => constructor <;> simp [squashAux, replaceRuns]
  | cons c rest ih =>
    by_cases h : isSafeChar c
    · refine ⟨?_, ?_⟩
      · rw [replaceRuns]; simp [squashAux, h, ih.1]
      · rw [show List.dropWhile (fun d => !isSafeChar d) (c :: rest) = c :: rest from by
            simp [List.dropWhile, h]]
        rw [replaceRuns]; simp [squashAux, h, ih.1]
    · refine ⟨?_, ?_⟩
      · rw [replaceRuns]; simp [squashAux, h, ih.2]
      · rw [show List.dropWhile (fun d => !isSafeChar d) (c :: rest) =
              List.dropWhile (fun d => !isSafeChar d) rest from by simp [List.dropWhile, h]]
        rw [← ih.2]; simp [squashAux, h]

theorem isSafeChar_not_underscore {c : Char} (h : isSafeChar c = true) : c ≠ '_' := by
  intro hc
  subst hc
  exact absurd h (by decide)

theorem okChar_notSafe_eq_underscore {c : Char} (hok : okChar c = true)
    (h : isSafeChar c = false) : c = '_' := by
  have : isU c = true := by
    cases hiu : isU c
    · simp [okChar, h, hiu] at hok
    · rfl
  simpa [isU] using this

theorem squashAux_mem_okChar (l : List Char) :
    ∀ b, ∀ c ∈ squashAux b l, okChar c = true := by
  induction l with
  | nil => intro b c hc; simp [squashAux] at hc
  | cons d rest ih =>
    intro b c hc
    by_cases h : isSafeChar d
    · rw [show squashAux b (d :: rest) = d :: squashAux false rest from by
          simp [squashAux, h]] at hc
      rw [List.mem_cons] at hc
      rcases hc with hc | hc
      · subst hc; simp [okChar, h]
      · exact ih false c hc
    · cases b with
      | true =>
        rw [show squashAux true (d :: rest) = squashAux true rest from by
            simp [squashAux, h]] at hc
        exact ih true c hc
      | false =>
        rw [show squashAux false (d :: rest) = '_' :: squashAux true rest from by
            simp [squashAux, h]] at hc
        rw [List.mem_cons] at hc
        rcases hc with hc | hc
        · subst hc; simp [okChar, isU]
        · exact ih true c hc

theorem squashAux_chain (l : List Char) :
    List.Chain' noUU (squashAux false l) ∧
      (List.Chain' noUU (squashAux true l) ∧ (squashAux true l).head? ≠ some '_') := by
  induction l with
  | nil => refine ⟨List.chain'_nil, List.chain'_nil, by simp [squashAux]⟩
  | cons c rest ih =>
    by_cases h : isSafeChar c
    · have hc : c ≠ '_' := isSafeChar_not_underscore h
      have hchain : List.Chain' noUU (c :: squashAux false rest) := by
        rw [List.chain'_cons']
        exact ⟨fun y _ => fun ⟨h1, _⟩ => hc h1, ih.1⟩
      refine ⟨by simpa [squashAux, h] using hchain, by simpa [squashAux, h] using hchain,
        by simp [squashAux, h, hc]⟩
    · have hchain : List.Chain' noUU ('_' :: squashAux true rest) := by
        rw [List.chain'_cons']
        refine ⟨fun y hy => ?_, ih.2.1⟩
        intro ⟨_, h2⟩
        subst h2
        exact ih.2.2 hy
      exact ⟨by simpa [squashAux, h] using hchain,
        by simpa [squashAux, h] using ih.2.1, by simpa [squashAux, h] using ih.2.2⟩

/-- On a list of `okChar` characters with no two adjacent underscores, the
squashing pass is the identity. -/
theorem squashAux_fix (l : List Char) :
    ((∀ c ∈ l, okChar c = true) → List.Chain' noUU l → squashAux false l = l) ∧
      ((∀ c ∈ l, okChar c = true) → List.Chain' noUU l → l.head? ≠ some '_' →
        squashAux true l = l) := by
  induction l with
  | nil => exact ⟨fun _ _ => rfl, fun _ _ _ => rfl⟩
  | cons c rest ih =>
    constructor
    · intro hok hchain
      by_cases h : isSafeChar c
      · have := ih.1 (fun d hd => hok d (List.mem_cons_of_mem c hd)) hchain.tail
        simp [squashAux, h, this]
      · have hc : c = '_' := okChar_notSafe_eq_underscore (hok c (List.mem_cons_self c rest)) (by simpa using h)
        subst hc
        have hrest : rest.head? ≠ some '_' := by
          intro hhd
          cases rest with
          | nil => simp at hhd
          | cons d t =>
            have hd : d = '_' := by simpa using hhd
            subst hd
            exact (List.chain'_cons.mp hchain).1 ⟨rfl, rfl⟩
        have := ih.2 (fun d hd => hok d (List.mem_cons_of_mem _ hd)) hchain.tail hrest
        simp [squashAux, h, this]
    · intro hok hchain hhd
      have hc : c ≠ '_' := by
        intro hc
        exact hhd (by simp [hc])
      have h : isSafeChar c = true := by
        cases h : isSafeChar c
        · exact absurd (okChar_notSafe_eq_underscore (hok c (List.mem_cons_self c rest)) h) hc
        · rfl
      have := ih.1 (fun d hd => hok d (List.mem_cons_of_mem c hd)) hchain.tail
      simp [squashAux, h, this]

theorem stripU_subset {l : List Char} : ∀ c ∈ stripU l, c ∈ l := by
  intro c hc
  unfold stripU at hc
  have h1 : c ∈ List.dropWhile isU l :=
    ( List.rdropWhile_prefix isU (List.dropWhile isU l)).subset hc
  exact (List.dropWhile_sublist isU).subset h1

theorem stripU_chain {l : List Char} (h : List.Chain' noUU l) :
    List.Chain' noUU (stripU l) := by
  unfold stripU
  exact List.Chain'.prefix (h.suffix (List.dropWhile_suffix isU)) ( List.rdropWhile_prefix isU _)

theorem head?_dropWhile_false (p : Char → Bool) (l : List Char) {a : Char}
    (h : (List.dropWhile p l).head? = some a) : p a = false := by
  induction l with
  | nil => simp [List.dropWhile] at h
  | cons c t ih =>
    by_cases hp : p c
    · exact ih (by simpa [List.dropWhile, hp] using h)
    · have : c = a := by simpa [List.dropWhile, hp] using h
      subst this
      simpa using hp

theorem dropWhile_eq_self_of_head? (p : Char → Bool) (l : List Char)
    (h : ∀ a, l.head? = some a → p a = false) : List.dropWhile p l = l := by
  cases l with
  | nil => rfl
  | cons a t => simp [List.dropWhile, h a rfl]

theorem stripU_head_not_underscore (l : List Char) : (stripU l).head? ≠ some '_' := by
  intro hhd
  obtain ⟨u, hu⟩ := List.rdropWhile_prefix isU (List.dropWhile isU l)
  have h2 : (List.dropWhile isU l).head? = some '_' := by
    rcases hs : stripU l with _ | ⟨a, t⟩
    · rw [hs] at hhd; simp at hhd
    · have ha : a = '_' := by rw [hs] at hhd; simpa using hhd
      rw [show stripU l = List.rdropWhile isU (List.dropWhile isU l) from rfl] at hs
      rw [hs] at hu
      rw [← hu]
      simp [ha]
  have := head?_dropWhile_false isU l h2
  simp [isU] at this

theorem stripU_idem (l : List Char) : stripU (stripU l) = stripU l := by
  have h1 : List.dropWhile isU (stripU l) = stripU l := by
    apply dropWhile_eq_self_of_head?
    intro a ha
    have hne := stripU_head_not_underscore l
    rw [ha] at hne
    have : a ≠ '_' := fun hc => hne (by rw [hc])
    simpa [isU] using this
  show List.rdropWhile isU (List.dropWhile isU (stripU l)) = stripU l
  rw [h1]
  show List.rdropWhile isU (List.rdropWhile isU (List.dropWhile isU l)) = stripU l
  rw [List.rdropWhile_idempotent]
  rfl

theorem okChar_lowerChar_fix {c : Char} (h : okChar c = true) : lowerChar c = c := by
  unfold lowerChar
  rcases (by simpa [okChar] using h : isSafeChar c = true ∨ isU c = true) with hs | hu
  · have : 97 ≤ c.toNat ∧ c.toNat ≤ 122 ∨ 48 ≤ c.toNat ∧ c.toNat ≤ 57 := by
      simpa [isSafeChar, Bool.or_eq_true, Bool.and_eq_true, decide_eq_true_eq] using hs
    rw [if_neg (by omega)]
  · have : c = '_' := by simpa [isU] using hu
    subst this
    rfl

/-- The core sanitizer is idempotent. -/
theorem sanitizeCore_idem (s : String) : sanitizeCore (sanitizeCore s) = sanitizeCore s := by
  set r : List Char := stripU (squashAux false (s.data.map lowerChar)) with hr
  have hdata : (sanitizeCore s).data = r := rfl
  have hok : ∀ c ∈ r, okChar c = true := fun c hc =>
    squashAux_mem_okChar _ false c (stripU_subset c hc)
  have hmap : r.map lowerChar = r := by
    have h1 : r.map lowerChar = r.map id :=
      List.map_congr_left (fun c hc => okChar_lowerChar_fix (hok c hc))
    rw [h1, List.map_id]
  have hchain : List.Chain' noUU r := stripU_chain (squashAux_chain _).1
  have hsq : squashAux false r = r := (squashAux_fix r).1 hok hchain
  show String.mk (stripU (squashAux false ((sanitizeCore s).data.map lowerChar))) = sanitizeCore s
  rw [hdata, hmap, hsq, hr, stripU_idem]
  rfl

theorem sanitize_of_core_ne (s f : String) (h : sanitizeCore s ≠ "") :
    sanitize s f = sanitizeCore s := by
  simp [sanitize, h]

theorem sanitize_of_core_eq (s f : String) (h : sanitizeCore s = "") :
    sanitize s f = f := by
  simp [sanitize, h]

/-! ## Claims C3 and C4 -/

/-- C3: for every string input `s` and fallback `f`, `sanitize s f` equals the
result of lowercasing `s`, replacing every maximal run of characters outside
`[a-z0-9]` with a single underscore, and stripping leading and trailing
underscores, except that when that result is empty the fallback `f` is
returned; in particular `sanitize "" f = f` and `sanitize "!!!" f = f`, and
the function is total (a Lean function) with no error path. -/
theorem sanitize_matches_spec_C3 :
    (∀ s f : String, sanitize s f = sanitizeSpec s f) ∧
    (∀ f : String, sanitize "" f = f) ∧
    (∀ f : String, sanitize "!!!" f = f) := by
  refine ⟨fun s f => ?_, fun f => ?_, fun f => ?_⟩
  · unfold sanitize sanitizeSpec sanitizeCore
    rw [(squashAux_eq_replaceRuns (s.data.map lowerChar)).1]
  · have h : sanitizeCore "" = "" := by decide
    simp [sanitize, h]
  · have h : sanitizeCore "!!!" = "" := by decide
    simp [sanitize, h]

/-- C4 counterexample: idempotence fails for a fallback that is not itself
sanitized. With `s = ""` and `f = "A"`, `sanitize "" "A" = "A"` but
re-sanitizing that output yields `"a"`, so re-sanitizing the function's own
output is not a no-op for every string `s` and fallback `f`. -/
theorem sanitize_idem_C4_cex :
    sanitize (sanitize "" "A") "A" ≠ sanitize "" "A" := by decide

/-- C4 (amended): sanitization is idempotent whenever the fallback is itself a
fixed point of sanitization (`sanitize f f = f`) — which holds for every
fallback constant the repository uses ("unnamed_project",
"unnamed_repository", "unnamed_variablegroup", "unnamed_project_ref"); on the
non-fallback branch re-sanitizing the output is unconditionally a no-op. -/
theorem sanitize_idem_C4 (s f : String) (hf : sanitize f f = f) :
    sanitize (sanitize s f) f = sanitize s f := by
  by_cases h : sanitizeCore s = ""
  · rw [sanitize_of_core_eq s f h]
    exact hf
  · rw [sanitize_of_core_ne s f h]
    unfold sanitize
    rw [sanitizeCore_idem, if_neg h]

/-- Witness for C4 (amended): the repository's fallback "unnamed_project" is a
sanitize fixed point, and idempotence holds there on a concrete input. -/
theorem sanitize_idem_C4_witness :
    sanitize "unnamed_project" "unnamed_project" = "unnamed_project" ∧
      sanitize (sanitize "My Proj!" "unnamed_project") "unnamed_project" =
        sanitize "My Proj!" "unnamed_project" :=
  ⟨by decide, sanitize_idem_C4 "My Proj!" "unnamed_project" (by decide)⟩

theorem fetchFrom_split (pre : List Page) (p : Page) (rest : List Page)
    (hpre : ∀ q ∈ pre, (continuationOf q).isSome = true)
    (hp : continuationOf p = none) :
    fetchFrom (pre ++ p :: rest) =
      some (((pre ++ [p]).map (fun q => normalize q.body)).flatten, pre.length + 1) := by
  induction pre with
  | nil => simp [fetchFrom, hp]
  | cons q t ih =>
    have hq : (continuationOf q).isSome = true := hpre q (List.mem_cons_self q t)
    obtain ⟨s, hs⟩ := Option.isSome_iff_exists.mp hq
    have ih2 := ih (fun x hx => hpre x (List.mem_cons_of_mem q hx))
    simp only [List.cons_append, fetchFrom, hs]
    simp only [List.append_eq]
    rw [ih2]
    simp

theorem exists_first_tokenless (pages : List Page)
    (h : ∃ p ∈ pages, continuationOf p = none) :
    ∃ pre p rest, pages = pre ++ p :: rest ∧
      (∀ q ∈ pre, (continuationOf q).isSome = true) ∧ continuationOf p = none := by
  induction pages with
  | nil => simp at h
  | cons q t ih =>
    cases hq : continuationOf q with
    | none => exact ⟨[], q, t, rfl, by simp, hq⟩
    | some s =>
      have h2 : ∃ p ∈ t, continuationOf p = none := by
        obtain ⟨p, hp, hpn⟩ := h
        rcases List.mem_cons.mp hp with hpq | hp
        · rw [hpq, hq] at hpn; cases hpn
        · exact ⟨p, hp, hpn⟩
      obtain ⟨pre, p, rest, heq, hpre, hpn⟩ := ih h2
      refine ⟨q :: pre, p, rest, by rw [heq]; rfl, ?_, hpn⟩
      intro x hx
      rcases List.mem_cons.mp hx with hxq | hx
      · rw [hxq, hq]; rfl
      · exact hpre x hx

/-- C1: for every recorded response sequence in which some page carries no
continuation token, the fetch loop terminates at the first such page,
returning the concatenation, in page-arrival order, of each consumed page's
normalized items (within-page order preserved), and issues exactly one
request per consumed page; concretely, on the two-page example the result is
["A","B","C"] after exactly two requests. -/
theorem fetch_pagination_C1 :
    (∀ pages : List Page, (∃ p ∈ pages, continuationOf p = none) →
      ∃ pre p rest, pages = pre ++ p :: rest ∧
        (∀ q ∈ pre, (continuationOf q).isSome = true) ∧
        continuationOf p = none ∧
        fetchFrom pages =
          some (((pre ++ [p]).map (fun q => normalize q.body)).flatten, pre.length + 1)) ∧
    fetchFrom [pageOne, pageTwo] = some ([.str "A", .str "B", .str "C"], 2) := by
  constructor
  · intro pages h
    obtain ⟨pre, p, rest, heq, hpre, hpn⟩ := exists_first_tokenless pages h
    exact ⟨pre, p, rest, heq, hpre, hpn, by rw [heq]; exact fetchFrom_split pre p rest hpre hpn⟩
  · rfl

/-- Witness for C1: the universal part applied to the concrete two-page
sequence of the claim. -/
theorem fetch_pagination_C1_witness :
    ∃ pre p rest, ([pageOne, pageTwo] : List Page) = pre ++ p :: rest ∧
      (∀ q ∈ pre, (continuationOf q).isSome = true) ∧
      continuationOf p = none ∧
      fetchFrom [pageOne, pageTwo] =
        some (((pre ++ [p]).map (fun q => normalize q.body)).flatten, pre.length + 1) :=
  fetch_pagination_C1.1 [pageOne, pageTwo] ⟨pageTwo, by simp, rfl⟩

/-- C2: `normalize` resolves every page value by the first matching rule of
the exact priority order of §4.2 (object with array-valued "value" key; bare
array; first array-valued entry of an object in insertion order; whole value
as a singleton), and on `{"value": [1,2], "other": [3]}` rule 1 beats rule 3,
yielding `[1,2]`. -/
theorem normalize_priority_C2 :
    (∀ v : JSONVal, normalize v = normalizeSpec v) ∧
    normalize (.obj [("value", .arr [.num 1, .num 2]), ("other", .arr [.num 3])]) =
      [.num 1, .num 2] := by
  constructor
  · intro v
    match v with
    | .str s => rfl
    | .num n => rfl
    | .bool b => rfl
    | .null => rfl
    | .arr xs => rfl
    | .obj fields =>
      show normalize (.obj fields) = normalizeSpec (.obj fields)
      cases hv : fields.lookup "value" with
      | none =>
        cases hf : firstArrayEntry fields with
        | none => simp [normalize, normalizeSpec, ruleOneSpec, ruleTwoSpec, ruleThreeSpec, hv, hf]
        | some xs => simp [normalize, normalizeSpec, ruleOneSpec, ruleTwoSpec, ruleThreeSpec, hv, hf]
      | some w =>
        cases w with
        | arr xs => simp [normalize, normalizeSpec, ruleOneSpec, hv]
        | str s =>
          cases hf : firstArrayEntry fields with
          | none => simp [normalize, normalizeSpec, ruleOneSpec, ruleTwoSpec, ruleThreeSpec, hv, hf]
          | some xs => simp [normalize, normalizeSpec, ruleOneSpec, ruleTwoSpec, ruleThreeSpec, hv, hf]
        | num n =>
          cases hf : firstArrayEntry fields with
          | none => simp [normalize, normalizeSpec, ruleOneSpec, ruleTwoSpec, ruleThreeSpec, hv, hf]
          | some xs => simp [normalize, normalizeSpec, ruleOneSpec, ruleTwoSpec, ruleThreeSpec, hv, hf]
        | bool b =>
          cases hf : firstArrayEntry fields with
          | none => simp [normalize, normalizeSpec, ruleOneSpec, ruleTwoSpec, ruleThreeSpec, hv, hf]
          | some xs => simp [normalize, normalizeSpec, ruleOneSpec, ruleTwoSpec, ruleThreeSpec, hv, hf]
        | null =>
          cases hf : firstArrayEntry fields with
          | none => simp [normalize, normalizeSpec, ruleOneSpec, ruleTwoSpec, ruleThreeSpec, hv, hf]
          | some xs => simp [normalize, normalizeSpec, ruleOneSpec, ruleTwoSpec, ruleThreeSpec, hv, hf]
        | obj g =>
          cases hf : firstArrayEntry fields with
          | none => simp [normalize, normalizeSpec, ruleOneSpec, ruleTwoSpec, ruleThreeSpec, hv, hf]
          | some xs => simp [normalize, normalizeSpec, ruleOneSpec, ruleTwoSpec, ruleThreeSpec, hv, hf]
  · rfl

/-! ## Helper facts about the generator cores -/

theorem truthyOpt_some (v : JSONVal) : truthyOpt (some v) = truthy v := rfl

theorem projetoCore_invalid (fields : List (String × JSONVal))
    (hnr : gerarProjetoCore (.obj fields) ≠ .raise)
    (hchk : (truthyOpt (fields.lookup "id") && truthyOpt (fields.lookup "name")) = false) :
    gerarProjetoCore (.obj fields) = .ok (none, none) := by
  rcases hcap : (fields.lookup "capabilities").getD (.obj []) with _ | _ | _ | _ | _ | capFields
  case obj =>
    rcases hpt : (capFields.lookup "processTemplate").getD (.obj []) with _ | _ | _ | _ | _ | ptFields
    case obj =>
      rcases hvc : (capFields.lookup "versioncontrol").getD (.obj []) with _ | _ | _ | _ | _ | vcFields
      case obj => simp [gerarProjetoCore, hcap, hpt, hvc, hchk]
      all_goals exact absurd (by simp [gerarProjetoCore, hcap, hpt, hvc]) hnr
    all_goals exact absurd (by simp [gerarProjetoCore, hcap, hpt]) hnr
  all_goals exact absurd (by simp [gerarProjetoCore, hcap]) hnr

theorem projetoCore_success (fields capFields ptFields vcFields : List (String × JSONVal))
    (idV : JSONVal) (nameS : String)
    (hcap : (fields.lookup "capabilities").getD (.obj []) = .obj capFields)
    (hpt : (capFields.lookup "processTemplate").getD (.obj []) = .obj ptFields)
    (hvc : (capFields.lookup "versioncontrol").getD (.obj []) = .obj vcFields)
    (hid : fields.lookup "id" = some idV) (hidt : truthy idV = true)
    (hname : fields.lookup "name" = some (.str nameS)) (hns : nameS ≠ "") :
    gerarProjetoCore (.obj fields) =
      .ok (some ("\nresource \"azuredevops_project\" \"" ++ sanitize nameS "unnamed_project" ++
          "\" \x7b\n  name               = \"" ++ nameS ++
          "\"\n  description        = " ++ jsonDumps ((fields.lookup "description").getD (.str "")) ++
          "\n  visibility         = \"" ++ pyStr ((fields.lookup "visibility").getD (.str "private")) ++
          "\"\n  version_control    = \"" ++ pyStr ((vcFields.lookup "sourceControlType").getD (.str "Git")) ++
          "\"\n  work_item_template = \"" ++ pyStr ((ptFields.lookup "templateName").getD (.str "Agile")) ++
          "\"\n\x7d\n"),
        some ("\nimport \x7b\n  id = \"" ++ pyStr idV ++
          "\"\n  to = azuredevops_project." ++ sanitize nameS "unnamed_project" ++ "\n\x7d\n")) := by
  have h1 : truthyOpt (some idV) = true := by simp [truthyOpt, hidt]
  have h2 : truthyOpt (some (JSONVal.str nameS)) = true := by simp [truthyOpt, truthy, hns]
  simp [gerarProjetoCore, hcap, hpt, hvc, hid, hname, h1, h2]

theorem repoCore_success (fields projFields : List (String × JSONVal))
    (ridV pidV : JSONVal) (rnS pnS : String)
    (hproj : (fields.lookup "project").getD (.obj []) = .obj projFields)
    (hrid : fields.lookup "id" = some ridV) (hridt : truthy ridV = true)
    (hrname : fields.lookup "name" = some (.str rnS)) (hrns : rnS ≠ "")
    (hpid : projFields.lookup "id" = some pidV) (hpidt : truthy pidV = true)
    (hpname : projFields.lookup "name" = some (.str pnS)) (hpns : pnS ≠ "") :
    gerarRepoCore (.obj fields) =
      .ok (some ("\nresource \"azuredevops_git_repository\" \"" ++ sanitize rnS "unnamed_repository" ++
          "\" \x7b\n  project_id = azuredevops_project." ++ sanitize pnS "unnamed_project_ref" ++
          ".id\n  name       = \"" ++ rnS ++
          "\"\n\n  # Incluindo o bloco initialization com init_type \"Clean\"\n  initialization \x7b\n    init_type = \"Clean\"\n  \x7d\n\n  # Incluindo o bloco lifecycle para gerenciar importação e proteção contra destruição\n  lifecycle \x7b\n    ignore_changes = [\n      # Ignora mudanças em initialization para suportar importação de repositórios existentes\n      # Dado que um repo agora existe, seja importado para o estado do terraform ou criado pelo terraform,\n      # não nos importamos com a configuração de initialization contra o recurso existente\n      initialization,\n    ]\n    prevent_destroy = true\n  \x7d\n\x7d\n"),
        some ("\nimport \x7b\n  id = \"" ++ pyStr pidV ++ "/" ++ pyStr ridV ++
          "\"\n  to = azuredevops_git_repository." ++ sanitize rnS "unnamed_repository" ++
          "\n\x7d\n")) := by
  have h1 : truthyOpt (some ridV) = true := by simp [truthyOpt, hridt]
  have h2 : truthyOpt (some (JSONVal.str rnS)) = true := by simp [truthyOpt, truthy, hrns]
  have h3 : truthyOpt (some pidV) = true := by simp [truthyOpt, hpidt]
  have h4 : truthyOpt (some (JSONVal.str pnS)) = true := by simp [truthyOpt, truthy, hpns]
  simp [gerarRepoCore, hproj, hrid, hrname, hpid, hpname, h1, h2, h3, h4]

theorem vgCore_invalid (fields prFields : List (String × JSONVal))
    (hpr : (fields.lookup "projectReference").getD (.obj []) = .obj prFields)
    (hchk : (truthyOpt (fields.lookup "id") && truthyOpt (fields.lookup "name") &&
      truthyOpt (prFields.lookup "id") && truthyOpt (prFields.lookup "name")) = false) :
    gerarVgCore (.obj fields) = .ok (none, none) := by
  simp [gerarVgCore, hpr, hchk]

theorem vgCore_invalid_of_ne_raise (fields : List (String × JSONVal))
    (hnr : gerarVgCore (.obj fields) ≠ .raise)
    (hid : truthyOpt (fields.lookup "id") = false) :
    gerarVgCore (.obj fields) = .ok (none, none) := by
  rcases hpr : (fields.lookup "projectReference").getD (.obj []) with _ | _ | _ | _ | _ | prFields
  case obj => exact vgCore_invalid fields prFields hpr (by simp [hid])
  all_goals exact absurd (by simp [gerarVgCore, hpr]) hnr

theorem vgCore_success (fields prFields varEntries : List (String × JSONVal))
    (idV pidV : JSONVal) (nameS pnS blockS : String)
    (hpr : (fields.lookup "projectReference").getD (.obj []) = .obj prFields)
    (hid : fields.lookup "id" = some idV) (hidt : truthy idV = true)
    (hname : fields.lookup "name" = some (.str nameS)) (hns : nameS ≠ "")
    (hpid : prFields.lookup "id" = some pidV) (hpidt : truthy pidV = true)
    (hpname : prFields.lookup "name" = some (.str pnS)) (hpns : pnS ≠ "")
    (hvars : (fields.lookup "variables").getD (.obj []) = .obj varEntries)
    (hblock : vgVariablesBlock varEntries = .ok blockS) :
    gerarVgCore (.obj fields) =
      .ok (some ("\nresource \"azuredevops_variable_group\" \"" ++ sanitize nameS "unnamed_variablegroup" ++
          "\" \x7b\n  project_id = azuredevops_project." ++ sanitize pnS "unnamed_project_ref" ++
          ".id\n  name       = \"" ++ nameS ++
          "\"\n\n  variable \x7b\n" ++ blockS ++ "  \x7d\n\x7d\n"),
        some ("\nimport \x7b\n  id = \"" ++ pyStr pidV ++ "/" ++ pyStr idV ++
          "\"\n  to = azuredevops_variable_group." ++ sanitize nameS "unnamed_variablegroup" ++
          "\n\x7d\n")) := by
  have h1 : truthyOpt (some idV) = true := by simp [truthyOpt, hidt]
  have h2 : truthyOpt (some (JSONVal.str nameS)) = true := by simp [truthyOpt, truthy, hns]
  have h3 : truthyOpt (some pidV) = true := by simp [truthyOpt, hpidt]
  have h4 : truthyOpt (some (JSONVal.str pnS)) = true := by simp [truthyOpt, truthy, hpns]
  simp [gerarVgCore, hpr, hid, hname, hpid, hpname, hvars, hblock, h1, h2, h3, h4]

theorem projetoCore_pair_shape (fields : List (String × JSONVal))
    (r : Option String × Option String)
    (h : gerarProjetoCore (.obj fields) = .ok r) :
    r = (none, none) ∨ ∃ a b, r = (some a, some b) := by
  simp only [gerarProjetoCore] at h
  repeat' split at h
  all_goals simp_all
  all_goals (right; exact ⟨_, _, by cases h; rfl⟩)

theorem repoCore_pair_shape (fields : List (String × JSONVal))
    (r : Option String × Option String)
    (h : gerarRepoCore (.obj fields) = .ok r) :
    r = (none, none) ∨ ∃ a b, r = (some a, some b) := by
  simp only [gerarRepoCore] at h
  repeat' split at h
  all_goals simp_all
  all_goals (right; exact ⟨_, _, by cases h; rfl⟩)

theorem vgCore_pair_shape (fields : List (String × JSONVal))
    (r : Option String × Option String)
    (h : gerarVgCore (.obj fields) = .ok r) :
    r = (none, none) ∨ ∃ a b, r = (some a, some b) := by
  simp only [gerarVgCore] at h
  repeat' split at h
  all_goals simp_all
  all_goals (right; exact ⟨_, _, by cases h; rfl⟩)

theorem strContainsSub_append_left (x t mid : String) (h : strContainsSub t mid) :
    strContainsSub (x ++ t) mid := by
  obtain ⟨a, b, hab⟩ := h
  exact ⟨x ++ a, b, by rw [hab]; simp [String.append_assoc]⟩

theorem lowerString_pyStr_bool (b : Bool) :
    lowerString (pyStr (.bool b)) = cond b "true" "false" := by
  cases b <;> decide

theorem vgVariablesBlock_spec :
    ∀ entries : List (String × JSONVal), ∀ triples : List (String × String × Bool),
      List.Forall₂ vgEntryMatches entries triples →
      vgVariablesBlock entries = .ok (vgVarsSpecFold triples) := by
  intro entries triples h
  induction h with
  | nil => rfl
  | @cons p t entriesT triplesT h1 _ ih =>
    rcases p with ⟨n, d⟩
    rcases t with ⟨n', v, bsec⟩
    obtain ⟨hn, vf, hobj, hval, hsec⟩ := h1
    dsimp only at hn hobj hval hsec
    have hd : d = JSONVal.obj vf := hobj
    have hvv : pyStr ((vf.lookup "value").getD (.str "")) = v := by
      rcases hval with ⟨ha, hb⟩ | ha
      · rw [ha, hb]; rfl
      · rw [ha]; rfl
    have hss : lowerString (pyStr ((vf.lookup "isSecret").getD (.bool false))) =
        cond bsec "true" "false" := by
      rcases hsec with ⟨ha, hb⟩ | ha
      · rw [ha, hb]; exact lowerString_pyStr_bool false
      · rw [ha]; exact lowerString_pyStr_bool bsec
    have hn' : n = n' := hn
    simp only [vgVariablesBlock, hd, hvv, hss, ih, hn', vgVarsSpecFold, vgVarLineSpec]

/-! ## Claims C5-C10 -/

/-- C5 counterexample: a Project entity lacking both required fields but
carrying a non-dict `capabilities` value makes the renderer raise an uncaught
exception instead of returning the `(absent, absent)` validation pair, so the
claim's "returns the pair (absent, absent)" is false as stated. -/
theorem render_pair_C5_cex :
    gerar_terraform_projeto_ado (.obj [("capabilities", JSONVal.num 5)]) = .raise ∧
      gerar_terraform_projeto_ado (.obj [("capabilities", JSONVal.num 5)]) ≠
        .ok (none, none) := by
  constructor <;> decide

/-- C5 (amended): on every entity on which rendering completes without an
uncaught exception, the renderer returns `(absent, absent)` exactly when some
required field is absent or falsy and otherwise returns both blocks; and in
all cases a returned pair is never partially present (for the Project and
VariableGroup renderers cited by the claim). -/
theorem render_pair_C5 :
    (∀ fields : List (String × JSONVal),
      gerarProjetoCore (.obj fields) ≠ .raise →
        ((truthyOpt (fields.lookup "id") && truthyOpt (fields.lookup "name")) = false →
          gerarProjetoCore (.obj fields) = .ok (none, none)) ∧
        ((truthyOpt (fields.lookup "id") && truthyOpt (fields.lookup "name")) = true →
          ∃ a b, gerarProjetoCore (.obj fields) = .ok (some a, some b))) ∧
    (∀ fields prFields : List (String × JSONVal),
      (fields.lookup "projectReference").getD (.obj []) = .obj prFields →
      gerarVgCore (.obj fields) ≠ .raise →
        ((truthyOpt (fields.lookup "id") && truthyOpt (fields.lookup "name") &&
            truthyOpt (prFields.lookup "id") && truthyOpt (prFields.lookup "name")) = false →
          gerarVgCore (.obj fields) = .ok (none, none)) ∧
        ((truthyOpt (fields.lookup "id") && truthyOpt (fields.lookup "name") &&
            truthyOpt (prFields.lookup "id") && truthyOpt (prFields.lookup "name")) = true →
          ∃ a b, gerarVgCore (.obj fields) = .ok (some a, some b))) ∧
    (∀ fields r, gerarProjetoCore (.obj fields) = .ok r →
      r = (none, none) ∨ ∃ a b, r = (some a, some b)) ∧
    (∀ fields r, gerarVgCore (.obj fields) = .ok r →
      r = (none, none) ∨ ∃ a b, r = (some a, some b)) := by
  refine ⟨fun fields hnr => ⟨projetoCore_invalid fields hnr, fun hchk => ?_⟩,
    fun fields prFields hpr hnr => ⟨vgCore_invalid fields prFields hpr, fun hchk => ?_⟩,
    projetoCore_pair_shape, vgCore_pair_shape⟩
  · rw [Bool.and_eq_true] at hchk
    obtain ⟨hidt, hnt⟩ := hchk
    rcases hcap : (fields.lookup "capabilities").getD (.obj []) with _ | _ | _ | _ | _ | capFields
    case obj =>
      rcases hpt : (capFields.lookup "processTemplate").getD (.obj []) with _ | _ | _ | _ | _ | ptFields
      case obj =>
        rcases hvc : (capFields.lookup "versioncontrol").getD (.obj []) with _ | _ | _ | _ | _ | vcFields
        case obj =>
          cases hid : fields.lookup "id" with
          | none => rw [hid] at hidt; exact absurd hidt (by simp [truthyOpt])
          | some idV =>
            cases hname : fields.lookup "name" with
            | none => rw [hname] at hnt; exact absurd hnt (by simp [truthyOpt])
            | some nv =>
              rw [hid] at hidt
              rw [hname] at hnt
              cases nv with
              | str nameS =>
                have hns : nameS ≠ "" := by
                  simpa [truthyOpt, truthy] using hnt
                exact ⟨_, _, projetoCore_success fields capFields ptFields vcFields idV nameS
                  hcap hpt hvc hid (by simpa [truthyOpt] using hidt) hname hns⟩
              | num n =>
                exact absurd (by simp [gerarProjetoCore, hcap, hpt, hvc, hid, hname, hidt, hnt]) hnr
              | bool b =>
                exact absurd (by simp [gerarProjetoCore, hcap, hpt, hvc, hid, hname, hidt, hnt]) hnr
              | null =>
                exact absurd hnt (by simp [truthyOpt, truthy])
              | arr xs =>
                exact absurd (by simp [gerarProjetoCore, hcap, hpt, hvc, hid, hname, hidt, hnt]) hnr
              | obj g =>
                exact absurd (by simp [gerarProjetoCore, hcap, hpt, hvc, hid, hname, hidt, hnt]) hnr
        all_goals exact absurd (by simp [gerarProjetoCore, hcap, hpt, hvc]) hnr
      all_goals exact absurd (by simp [gerarProjetoCore, hcap, hpt]) hnr
    all_goals exact absurd (by simp [gerarProjetoCore, hcap]) hnr
  · rw [Bool.and_eq_true, Bool.and_eq_true, Bool.and_eq_true] at hchk
    obtain ⟨⟨⟨hidt, hnt⟩, hpidt⟩, hpnt⟩ := hchk
    cases hid : fields.lookup "id" with
    | none => rw [hid] at hidt; exact absurd hidt (by simp [truthyOpt])
    | some idV =>
      cases hname : fields.lookup "name" with
      | none => rw [hname] at hnt; exact absurd hnt (by simp [truthyOpt])
      | some nv =>
        cases hpid : prFields.lookup "id" with
        | none => rw [hpid] at hpidt; exact absurd hpidt (by simp [truthyOpt])
        | some pidV =>
          cases hpname : prFields.lookup "name" with
          | none => rw [hpname] at hpnt; exact absurd hpnt (by simp [truthyOpt])
          | some pnv =>
            rw [hid] at hidt
            rw [hname] at hnt
            rw [hpid] at hpidt
            rw [hpname] at hpnt
            cases nv with
            | str nameS =>
              cases pnv with
              | str pnS =>
                rcases hvars : (fields.lookup "variables").getD (.obj []) with _ | _ | _ | _ | _ | varEntries
                case obj =>
                  cases hblock : vgVariablesBlock varEntries with
                  | ok blockS =>
                    exact ⟨_, _, vgCore_success fields prFields varEntries idV pidV nameS pnS blockS
                      hpr hid (by simpa [truthyOpt] using hidt) hname
                      (by simpa [truthyOpt, truthy] using hnt)
                      hpid (by simpa [truthyOpt] using hpidt) hpname
                      (by simpa [truthyOpt, truthy] using hpnt) hvars hblock⟩
                  | raise =>
                    exact absurd (by simp [gerarVgCore, hpr, hid, hname, hpid, hpname,
                      hidt, hnt, hpidt, hpnt, hvars, hblock]) hnr
                all_goals exact absurd (by simp [gerarVgCore, hpr, hid, hname, hpid, hpname,
                  hidt, hnt, hpidt, hpnt, hvars]) hnr
              | num n =>
                exact absurd (by simp [gerarVgCore, hpr, hid, hname, hpid, hpname,
                  hidt, hnt, hpidt, hpnt]) hnr
              | bool b =>
                exact absurd (by simp [gerarVgCore, hpr, hid, hname, hpid, hpname,
                  hidt, hnt, hpidt, hpnt]) hnr
              | null => exact absurd hpnt (by simp [truthyOpt, truthy])
              | arr xs =>
                exact absurd (by simp [gerarVgCore, hpr, hid, hname, hpid, hpname,
                  hidt, hnt, hpidt, hpnt]) hnr
              | obj g =>
                exact absurd (by simp [gerarVgCore, hpr, hid, hname, hpid, hpname,
                  hidt, hnt, hpidt, hpnt]) hnr
            | num n =>
              exact absurd (by simp [gerarVgCore, hpr, hid, hname, hpid, hpname,
                hidt, hnt, hpidt, hpnt]) hnr
            | bool b =>
              exact absurd (by simp [gerarVgCore, hpr, hid, hname, hpid, hpname,
                hidt, hnt, hpidt, hpnt]) hnr
            | null => exact absurd hnt (by simp [truthyOpt, truthy])
            | arr xs =>
              exact absurd (by simp [gerarVgCore, hpr, hid, hname, hpid, hpname,
                hidt, hnt, hpidt, hpnt]) hnr
            | obj g =>
              exact absurd (by simp [gerarVgCore, hpr, hid, hname, hpid, hpname,
                hidt, hnt, hpidt, hpnt]) hnr

/-- Witness for C5 (amended): a Project entity missing `name` yields
`(none, none)`; a complete Project entity yields both blocks. -/
theorem render_pair_C5_witness :
    gerarProjetoCore (.obj [("id", JSONVal.str "1")]) = .ok (none, none) ∧
      ∃ a b, gerarProjetoCore (.obj [("id", JSONVal.str "1"), ("name", JSONVal.str "My Proj!"),
        ("visibility", JSONVal.str "private")]) = .ok (some a, some b) :=
  ⟨(render_pair_C5.1 _ (by decide)).1 (by decide),
    (render_pair_C5.1 _ (by decide)).2 (by decide)⟩

/-- C6: rendering the Project entity
`{"id":"1","name":"My Proj!","visibility":"private"}` yields the resource
block labelled by the sanitized identifier `my_proj` with default
`work_item_template = "Agile"`, and an import block with import id `"1"`
referencing the same identifier; the description is rendered through the
JSON-string-escaping step (second conjunct: a description with embedded
quotes and a newline appears escaped). -/
theorem project_end_to_end_C6 :
    gerar_terraform_projeto_ado projEntity =
      .ok (some "\nresource \"azuredevops_project\" \"my_proj\" \x7b\n  name               = \"My Proj!\"\n  description        = \"\"\n  visibility         = \"private\"\n  version_control    = \"Git\"\n  work_item_template = \"Agile\"\n\x7d\n",
        some "\nimport \x7b\n  id = \"1\"\n  to = azuredevops_project.my_proj\n\x7d\n") ∧
    gerar_terraform_projeto_ado projEntityDesc =
      .ok (some "\nresource \"azuredevops_project\" \"my_proj\" \x7b\n  name               = \"My Proj!\"\n  description        = \"say \\\"hi\\\"\\n\"\n  visibility         = \"private\"\n  version_control    = \"Git\"\n  work_item_template = \"Agile\"\n\x7d\n",
        some "\nimport \x7b\n  id = \"1\"\n  to = azuredevops_project.my_proj\n\x7d\n") := by
  constructor <;> rfl

/-- C7: for every Repository entity whose required fields are present (ids
truthy, names non-empty strings), the rendered resource block contains the
initialization sub-block with `init_type = "Clean"`, the lifecycle
ignore-changes list covering initialization, and the prevent-destroy setting,
and the import block uses the composite id `<project id>/<repo id>` with the
sanitized self identifier; concretely, for name "Core Repo" and project
`{id:"9", name:"Core Proj"}` the identifiers are `core_repo` and `core_proj`
and the import id is `9/r123`. -/
theorem repo_render_C7 :
    (∀ (fields projFields : List (String × JSONVal)) (ridV pidV : JSONVal) (rnS pnS : String),
      (fields.lookup "project").getD (.obj []) = .obj projFields →
      fields.lookup "id" = some ridV → truthy ridV = true →
      fields.lookup "name" = some (.str rnS) → rnS ≠ "" →
      projFields.lookup "id" = some pidV → truthy pidV = true →
      projFields.lookup "name" = some (.str pnS) → pnS ≠ "" →
      ∃ R I, gerarRepoCore (.obj fields) = .ok (some R, some I) ∧
        strContainsSub R repoInitSubText ∧
        strContainsSub R repoIgnoreText ∧
        strContainsSub R repoPreventText ∧
        I = "\nimport \x7b\n  id = \"" ++ pyStr pidV ++ "/" ++ pyStr ridV ++
          "\"\n  to = azuredevops_git_repository." ++ sanitize rnS "unnamed_repository" ++
          "\n\x7d\n") ∧
    gerar_terraform_repositorio_ado repoEntity =
      .ok (some "\nresource \"azuredevops_git_repository\" \"core_repo\" \x7b\n  project_id = azuredevops_project.core_proj.id\n  name       = \"Core Repo\"\n\n  # Incluindo o bloco initialization com init_type \"Clean\"\n  initialization \x7b\n    init_type = \"Clean\"\n  \x7d\n\n  # Incluindo o bloco lifecycle para gerenciar importação e proteção contra destruição\n  lifecycle \x7b\n    ignore_changes = [\n      # Ignora mudanças em initialization para suportar importação de repositórios existentes\n      # Dado que um repo agora existe, seja importado para o estado do terraform ou criado pelo terraform,\n      # não nos importamos com a configuração de initialization contra o recurso existente\n      initialization,\n    ]\n    prevent_destroy = true\n  \x7d\n\x7d\n",
        some "\nimport \x7b\n  id = \"9/r123\"\n  to = azuredevops_git_repository.core_repo\n\x7d\n") := by
  constructor
  · intro fields projFields ridV pidV rnS pnS hproj hrid hridt hrname hrns hpid hpidt hpname hpns
    rw [repoCore_success fields projFields ridV pidV rnS pnS hproj hrid hridt hrname hrns
      hpid hpidt hpname hpns]
    refine ⟨_, _, rfl, ?_, ?_, ?_, rfl⟩
    · exact strContainsSub_append_left _ _ _
        ⟨"\"\n\n  # Incluindo o bloco initialization com init_type \"Clean\"\n",
         "\n\n  # Incluindo o bloco lifecycle para gerenciar importação e proteção contra destruição\n  lifecycle \x7b\n    ignore_changes = [\n      # Ignora mudanças em initialization para suportar importação de repositórios existentes\n      # Dado que um repo agora existe, seja importado para o estado do terraform ou criado pelo terraform,\n      # não nos importamos com a configuração de initialization contra o recurso existente\n      initialization,\n    ]\n    prevent_destroy = true\n  \x7d\n\x7d\n",
         by decide⟩
    · exact strContainsSub_append_left _ _ _
        ⟨"\"\n\n  # Incluindo o bloco initialization com init_type \"Clean\"\n  initialization \x7b\n    init_type = \"Clean\"\n  \x7d\n\n  # Incluindo o bloco lifecycle para gerenciar importação e proteção contra destruição\n  lifecycle \x7b\n",
         "\n    prevent_destroy = true\n  \x7d\n\x7d\n",
         by decide⟩
    · exact strContainsSub_append_left _ _ _
        ⟨"\"\n\n  # Incluindo o bloco initialization com init_type \"Clean\"\n  initialization \x7b\n    init_type = \"Clean\"\n  \x7d\n\n  # Incluindo o bloco lifecycle para gerenciar importação e proteção contra destruição\n  lifecycle \x7b\n    ignore_changes = [\n      # Ignora mudanças em initialization para suportar importação de repositórios existentes\n      # Dado que um repo agora existe, seja importado para o estado do terraform ou criado pelo terraform,\n      # não nos importamos com a configuração de initialization contra o recurso existente\n      initialization,\n    ]\n",
         "\n  \x7d\n\x7d\n",
         by decide⟩
  · rfl

/-- Witness for C7: the universal part applied to the concrete Repository
entity of the claim. -/
theorem repo_render_C7_witness :
    ∃ R I, gerarRepoCore (.obj [("id", JSONVal.str "r123"), ("name", JSONVal.str "Core Repo"),
        ("project", JSONVal.obj [("id", JSONVal.str "9"), ("name", JSONVal.str "Core Proj")])]) =
      .ok (some R, some I) ∧
      strContainsSub R repoInitSubText ∧
      strContainsSub R repoIgnoreText ∧
      strContainsSub R repoPreventText ∧
      I = "\nimport \x7b\n  id = \"" ++ pyStr (JSONVal.str "9") ++ "/" ++ pyStr (JSONVal.str "r123") ++
        "\"\n  to = azuredevops_git_repository." ++ sanitize "Core Repo" "unnamed_repository" ++
        "\n\x7d\n" :=
  repo_render_C7.1 _ _ (JSONVal.str "r123") (JSONVal.str "9") "Core Repo" "Core Proj"
    rfl rfl (by decide) rfl (by decide) rfl (by decide) rfl (by decide)

/-- C8: for every VariableGroup entity with all required fields present (and
each variables entry an object whose value is a string defaulting to `""` and
whose `isSecret` flag is a boolean defaulting to `False`), the rendered
resource block contains, in insertion order, exactly one nested variable
sub-block per entry, with the raw value surrounded by quotes and the secrecy
flag as a lowercase boolean literal; concretely shown on a two-variable
entity with one defaulted and one secret flag. -/
theorem vg_variables_C8 :
    (∀ (fields prFields varEntries : List (String × JSONVal)) (idV pidV : JSONVal)
        (nameS pnS : String) (triples : List (String × String × Bool)),
      (fields.lookup "projectReference").getD (.obj []) = .obj prFields →
      fields.lookup "id" = some idV → truthy idV = true →
      fields.lookup "name" = some (.str nameS) → nameS ≠ "" →
      prFields.lookup "id" = some pidV → truthy pidV = true →
      prFields.lookup "name" = some (.str pnS) → pnS ≠ "" →
      (fields.lookup "variables").getD (.obj []) = .obj varEntries →
      List.Forall₂ vgEntryMatches varEntries triples →
      ∃ R I, gerarVgCore (.obj fields) = .ok (some R, some I) ∧
        R = "\nresource \"azuredevops_variable_group\" \"" ++
          sanitize nameS "unnamed_variablegroup" ++
          "\" \x7b\n  project_id = azuredevops_project." ++ sanitize pnS "unnamed_project_ref" ++
          ".id\n  name       = \"" ++ nameS ++
          "\"\n\n  variable \x7b\n" ++ vgVarsSpecFold triples ++ "  \x7d\n\x7d\n" ∧
        I = "\nimport \x7b\n  id = \"" ++ pyStr pidV ++ "/" ++ pyStr idV ++
          "\"\n  to = azuredevops_variable_group." ++ sanitize nameS "unnamed_variablegroup" ++
          "\n\x7d\n") ∧
    gerar_terraform_variablegroup_ado vgEntity =
      .ok (some "\nresource \"azuredevops_variable_group\" \"my_vars\" \x7b\n  project_id = azuredevops_project.core_proj.id\n  name       = \"My Vars!\"\n\n  variable \x7b\n    alpha = \x7b\n      value     = \"one\"\n      is_secret = false\n    \x7d\n    beta = \x7b\n      value     = \"two\"\n      is_secret = true\n    \x7d\n  \x7d\n\x7d\n",
        some "\nimport \x7b\n  id = \"9/7\"\n  to = azuredevops_variable_group.my_vars\n\x7d\n") := by
  constructor
  · intro fields prFields varEntries idV pidV nameS pnS triples hpr hid hidt hname hns
      hpid hpidt hpname hpns hvars hforall
    rw [vgCore_success fields prFields varEntries idV pidV nameS pnS (vgVarsSpecFold triples)
      hpr hid hidt hname hns hpid hpidt hpname hpns hvars
      (vgVariablesBlock_spec varEntries triples hforall)]
    exact ⟨_, _, rfl, rfl, rfl⟩
  · rfl

/-- Witness for C8: the universal part applied to the concrete two-variable
entity. -/
theorem vg_variables_C8_witness :
    ∃ R I, gerarVgCore (.obj [("id", JSONVal.num 7), ("name", JSONVal.str "My Vars!"),
        ("projectReference", JSONVal.obj [("id", JSONVal.str "9"), ("name", JSONVal.str "Core Proj")]),
        ("variables", JSONVal.obj [("alpha", JSONVal.obj [("value", JSONVal.str "one")]),
          ("beta", JSONVal.obj [("value", JSONVal.str "two"), ("isSecret", JSONVal.bool true)])])]) =
      .ok (some R, some I) ∧
      R = "\nresource \"azuredevops_variable_group\" \"" ++
        sanitize "My Vars!" "unnamed_variablegroup" ++
        "\" \x7b\n  project_id = azuredevops_project." ++ sanitize "Core Proj" "unnamed_project_ref" ++
        ".id\n  name       = \"" ++ "My Vars!" ++
        "\"\n\n  variable \x7b\n" ++
        vgVarsSpecFold [("alpha", "one", false), ("beta", "two", true)] ++ "  \x7d\n\x7d\n" ∧
      I = "\nimport \x7b\n  id = \"" ++ pyStr (JSONVal.str "9") ++ "/" ++ pyStr (JSONVal.num 7) ++
        "\"\n  to = azuredevops_variable_group." ++ sanitize "My Vars!" "unnamed_variablegroup" ++
        "\n\x7d\n" :=
  vg_variables_C8.1 _ _ _ (JSONVal.num 7) (JSONVal.str "9") "My Vars!" "Core Proj"
    [("alpha", "one", false), ("beta", "two", true)]
    rfl rfl (by decide) rfl (by decide) rfl (by decide) rfl (by decide) rfl
    (by refine List.Forall₂.cons ⟨rfl, _, rfl, ?_, ?_⟩ (List.Forall₂.cons ⟨rfl, _, rfl, ?_, ?_⟩ List.Forall₂.nil)
        · right; rfl
        · left; exact ⟨rfl, rfl⟩
        · right; rfl
        · right; rfl)

/-- C9: a generator input that decodes to a non-empty array whose first
element is not an object does not take the validation-failure path: the field
lookup on the non-object element raises an uncaught exception (the
element-type check and field accesses lie outside the guarded decode step),
while an empty array does return the `(absent, absent)` pair. -/
theorem nonobject_head_C9 :
    (∀ (h : JSONVal) (t : List JSONVal), (∀ fields, h ≠ JSONVal.obj fields) →
      gerar_terraform_projeto_ado (.arr (h :: t)) = .raise ∧
      gerar_terraform_repositorio_ado (.arr (h :: t)) = .raise) ∧
    gerar_terraform_projeto_ado (.arr []) = .ok (none, none) ∧
    gerar_terraform_repositorio_ado (.arr []) = .ok (none, none) := by
  refine ⟨fun h t hno => ⟨?_, ?_⟩, rfl, rfl⟩
  · show gerarProjetoCore h = .raise
    cases h with
    | obj fields => exact absurd rfl (hno fields)
    | str s => rfl
    | num n => rfl
    | bool b => rfl
    | null => rfl
    | arr xs => rfl
  · show gerarRepoCore h = .raise
    cases h with
    | obj fields => exact absurd rfl (hno fields)
    | str s => rfl
    | num n => rfl
    | bool b => rfl
    | null => rfl
    | arr xs => rfl

/-- Witness for C9: the input `[5]` raises in both generators. -/
theorem nonobject_head_C9_witness :
    gerar_terraform_projeto_ado (.arr [JSONVal.num 5]) = .raise ∧
      gerar_terraform_repositorio_ado (.arr [JSONVal.num 5]) = .raise :=
  nonobject_head_C9.1 (JSONVal.num 5) [] (fun _ hf => JSONVal.noConfusion hf)

/-- C10 counterexample: a Project entity with `id = 0` but a non-dict
`capabilities` value raises an uncaught exception instead of aborting with
the `(absent, absent)` validation pair, so the claim's universal "render
aborts with (absent, absent)" is false as stated. -/
theorem falsy_required_C10_cex :
    gerar_terraform_projeto_ado (.obj [("id", JSONVal.num 0), ("capabilities", JSONVal.num 5)]) =
        .raise ∧
      gerar_terraform_projeto_ado (.obj [("id", JSONVal.num 0), ("capabilities", JSONVal.num 5)]) ≠
        .ok (none, none) := by
  constructor <;> decide

/-- C10 (amended): on every entity on which field extraction raises no
exception, any required field that is present but equal to the number `0` or
the boolean `false` is treated as missing: rendering aborts with
`(absent, absent)` — for the Project renderer (required: `id`, `name`) and
the numerically-keyed VariableGroup renderer (required: `id`, `name`,
`projectReference.id`, `projectReference.name`). -/
theorem falsy_required_C10 :
    (∀ (fields : List (String × JSONVal)) (v : JSONVal),
      gerarProjetoCore (.obj fields) ≠ .raise →
      (fields.lookup "id" = some v ∨ fields.lookup "name" = some v) →
      (v = .num 0 ∨ v = .bool false) →
      gerarProjetoCore (.obj fields) = .ok (none, none)) ∧
    (∀ (fields prFields : List (String × JSONVal)) (v : JSONVal),
      gerarVgCore (.obj fields) ≠ .raise →
      (fields.lookup "projectReference").getD (.obj []) = .obj prFields →
      (fields.lookup "id" = some v ∨ fields.lookup "name" = some v ∨
        prFields.lookup "id" = some v ∨ prFields.lookup "name" = some v) →
      (v = .num 0 ∨ v = .bool false) →
      gerarVgCore (.obj fields) = .ok (none, none)) := by
  constructor
  · intro fields v hnr hfield hv
    have hf : truthy v = false := by rcases hv with rfl | rfl <;> decide
    rcases hfield with hid | hname
    · exact projetoCore_invalid fields hnr (by simp [hid, truthyOpt, hf])
    · exact projetoCore_invalid fields hnr (by simp [hname, truthyOpt, hf])
  · intro fields prFields v hnr hpr hfield hv
    have hf : truthy v = false := by rcases hv with rfl | rfl <;> decide
    rcases hfield with hid | hname | hpid | hpname
    · exact vgCore_invalid fields prFields hpr (by simp [hid, truthyOpt, hf])
    · exact vgCore_invalid fields prFields hpr (by simp [hname, truthyOpt, hf])
    · exact vgCore_invalid fields prFields hpr (by simp [hpid, truthyOpt, hf])
    · exact vgCore_invalid fields prFields hpr (by simp [hpname, truthyOpt, hf])

/-- Witness for C10 (amended): a VariableGroup entity with numeric id `0` and
all other required fields present aborts with `(none, none)`, and a Project
entity whose present `name` is the boolean `false` (a required field other
than `id`) does too. -/
theorem falsy_required_C10_witness :
    gerarVgCore (.obj [("id", JSONVal.num 0), ("name", JSONVal.str "My Vars!"),
        ("projectReference", JSONVal.obj [("id", JSONVal.str "9"),
          ("name", JSONVal.str "Core Proj")])]) = .ok (none, none) ∧
      gerarProjetoCore (.obj [("id", JSONVal.str "1"), ("name", JSONVal.bool false)]) =
        .ok (none, none) :=
  ⟨falsy_required_C10.2 _ _ (JSONVal.num 0) (by decide) rfl (Or.inl rfl) (Or.inl rfl),
    falsy_required_C10.1 _ (JSONVal.bool false) (by decide) (Or.inr rfl) (Or.inr rfl)⟩

end AzdoTf
